import Mathlib

/-!
Verification development for the transaction aggregation and report
generation pipeline of the SkyProCoursework_01 repository
(src/reports.py, src/services.py, src/views.py).

Conventions of the shallow embedding:
* Numeric cell values (amounts, cashback, prices, currency rates) are
  modelled as rationals; the builtin round(x, 2) of Python (and numpy),
  which rounds half to even, is modelled by round2 below.
* A parsed timestamp is modelled by the structure Dt (calendar fields plus
  second of day).  Cells that the code runs through a date parser are
  modelled as Option Dt: the parse result, none when parsing fails.
* String normalisation (.strip / .lower / .upper of Python) is modelled on
  the character ranges occurring in the data: ASCII plus the Cyrillic
  alphabet.
* A Python function whose exceptions can escape to the caller is embedded
  with result type Except String; Except.error models an uncaught raise,
  Except.ok a normal return.  Exception handlers inside function bodies are
  embedded by the corresponding value-level branches.
-/

/-! ## Rounding: Python round(x, 2), round half to even -/

/-- Round a rational to the nearest integer, ties to even
(the rounding of Python's builtin round and of numpy). -/
def roundHalfEven (x : ℚ) : ℤ :=
  let f := ⌊x⌋
  let r := x - f
  if r < 1/2 then f
  else if 1/2 < r then f + 1
  else if f % 2 = 0 then f else f + 1

/-- Model of Python round(x, 2). -/
def round2 (x : ℚ) : ℚ := (roundHalfEven (100 * x) : ℚ) / 100

/-! ## String helpers: Python str.strip, str.lower, str.upper -/

/-- The whitespace characters stripped by Python str.strip. -/
def pyWhitespace : List Char := [' ', '\t', '\n', '\r', '\x0b', '\x0c']

/-- Model of Python str.strip(). -/
def pyStrip (s : String) : String :=
  String.mk (((s.toList.dropWhile (pyWhitespace.contains ·)).reverse.dropWhile
    (pyWhitespace.contains ·)).reverse)

/-- Lower-case one character: ASCII letters and the Cyrillic range of the
data; other characters are unchanged (model of Python str.lower on the
character sets occurring in this program). -/
def lowerChar (c : Char) : Char :=
  if 'A' ≤ c ∧ c ≤ 'Z' then Char.ofNat (c.toNat + 32)
  else if 'А' ≤ c ∧ c ≤ 'Я' then Char.ofNat (c.toNat + 32)
  else if c = 'Ё' then 'ё'
  else c

/-- Upper-case one character, same character sets as lowerChar. -/
def upperChar (c : Char) : Char :=
  if 'a' ≤ c ∧ c ≤ 'z' then Char.ofNat (c.toNat - 32)
  else if 'а' ≤ c ∧ c ≤ 'я' then Char.ofNat (c.toNat - 32)
  else if c = 'ё' then 'Ё'
  else c

/-- Model of Python str.lower(). -/
def pyLower (s : String) : String := String.mk (s.toList.map lowerChar)

/-- Model of Python str.upper(). -/
def pyUpper (s : String) : String := String.mk (s.toList.map upperChar)

/-- Model of ", ".join(l). -/
def joinComma (l : List String) : String := String.intercalate ", " l

/-! ## Calendar arithmetic -/

/-- Gregorian leap year (the rule used by Python datetime and pandas). -/
def isLeap (y : ℕ) : Bool := y % 4 = 0 ∧ (y % 100 ≠ 0 ∨ y % 400 = 0)

/-- Days in a month, as validated by the datetime constructor. -/
def daysInMonth (y m : ℕ) : ℕ :=
  if m = 2 then (if isLeap y then 29 else 28)
  else if m = 4 ∨ m = 6 ∨ m = 9 ∨ m = 11 then 30
  else 31

/-- Days since the epoch 1970-01-01 of a civil date
(the standard days-from-civil algorithm; proleptic Gregorian calendar,
as used by Python datetime and by pandas timestamps). -/
def daysFromCivil (y m d : ℤ) : ℤ :=
  let yy := if m ≤ 2 then y - 1 else y
  let era := (if 0 ≤ yy then yy else yy - 399) / 400
  let yoe := yy - era * 400
  let mp := (m + 9) % 12
  let doy := (153 * mp + 2) / 5 + d - 1
  let doe := yoe * 365 + yoe / 4 - yoe / 100 + doy
  era * 146097 + doe - 719468

/-- A parsed timestamp: calendar fields plus the second of the day.
This is the embedding of a Python/pandas datetime value. -/
structure Dt where
  y : ℕ
  m : ℕ
  d : ℕ
  sec : ℕ
deriving DecidableEq

/-- Linearisation of a timestamp in seconds; datetime comparison and
timedelta arithmetic are carried out on this index. -/
def dtOrd (t : Dt) : ℤ := daysFromCivil t.y t.m t.d * 86400 + t.sec

/-- Zero-padded decimal rendering, width w. -/
def padNum (w : ℕ) (n : ℕ) : String :=
  let s := toString n
  String.mk (List.replicate (w - s.length) '0') ++ s

/-- Key of a calendar month as rendered by str(pandas Period), "YYYY-MM". -/
def fmtYM (p : ℕ × ℕ) : String := padNum 4 p.1 ++ "-" ++ padNum 2 p.2

/-- Date rendering used in top transactions: strftime("%d.%m.%Y"). -/
def fmtDMY (t : Dt) : String := padNum 2 t.d ++ "." ++ padNum 2 t.m ++ "." ++ padNum 4 t.y

/-! ## strptime models

Python strptime matches fields by regular expressions (%Y exactly four
digits; month, day, hour, minute, second one or two digits constrained by
an alternation) and afterwards the datetime constructor validates the
day of month.  The two-digit-first alternation of _strptime is modelled by
takeNum2or1: take two digits when their value is in range, otherwise one
digit when its value is in range, otherwise fail. -/

/-- Numeric value of a digit character. -/
def digitVal (c : Char) : ℕ := c.toNat - 48

/-- Take exactly n digits. -/
def takeFixedDigits (n : ℕ) (l : List Char) : Option (ℕ × List Char) :=
  let pre := l.take n
  if pre.length = n ∧ pre.all Char.isDigit then
    some (pre.foldl (fun a c => a * 10 + digitVal c) 0, l.drop n)
  else none

/-- Take one or two digits whose value lies in [lo, hi], two digits first. -/
def takeNum2or1 (lo hi : ℕ) (l : List Char) : Option (ℕ × List Char) :=
  match l with
  | [] => none
  | [c1] =>
    if c1.isDigit ∧ lo ≤ digitVal c1 ∧ digitVal c1 ≤ hi then some (digitVal c1, [])
    else none
  | c1 :: c2 :: rest =>
    if c1.isDigit then
      if c2.isDigit ∧ lo ≤ digitVal c1 * 10 + digitVal c2 ∧ digitVal c1 * 10 + digitVal c2 ≤ hi then
        some (digitVal c1 * 10 + digitVal c2, rest)
      else if lo ≤ digitVal c1 ∧ digitVal c1 ≤ hi then some (digitVal c1, c2 :: rest)
      else none
    else none

/-- Consume one expected literal character. -/
def expectChar (c : Char) (l : List Char) : Option (List Char) :=
  match l with
  | [] => none
  | x :: rest => if x = c then some rest else none

/-- Model of datetime.strptime(s, "%Y-%m-%d %H:%M:%S"): returns
(year, month, day, hour, minute, second) on success.  Seconds 60 and 61,
admitted by the %S regular expression, are rejected by the datetime
constructor, so the net valid range 0..59 is used directly. -/
def parseDateTime (s : String) : Option (ℕ × ℕ × ℕ × ℕ × ℕ × ℕ) := do
  let l := s.toList
  let (y, l) ← takeFixedDigits 4 l
  let l ← expectChar '-' l
  let (mo, l) ← takeNum2or1 1 12 l
  let l ← expectChar '-' l
  let (d, l) ← takeNum2or1 1 31 l
  let l ← expectChar ' ' l
  let (h, l) ← takeNum2or1 0 23 l
  let l ← expectChar ':' l
  let (mi, l) ← takeNum2or1 0 59 l
  let l ← expectChar ':' l
  let (se, l) ← takeNum2or1 0 59 l
  if l = [] ∧ 1 ≤ y ∧ d ≤ daysInMonth y mo then some (y, mo, d, h, mi, se) else none

/-- Model of datetime.strptime(s, "%Y-%m-%d"). -/
def parseDate10 (s : String) : Option (ℕ × ℕ × ℕ) := do
  let l := s.toList
  let (y, l) ← takeFixedDigits 4 l
  let l ← expectChar '-' l
  let (mo, l) ← takeNum2or1 1 12 l
  let l ← expectChar '-' l
  let (d, l) ← takeNum2or1 1 31 l
  if l = [] ∧ 1 ≤ y ∧ d ≤ daysInMonth y mo then some (y, mo, d) else none

/-! ## reports.py: get_spending_by_category -/

/-- A transaction row as seen by get_spending_by_category.
The operation-date cell is the result of
pd.to_datetime(..., dayfirst=True, errors="coerce") on that cell:
some dt when the cell parses, none when it is coerced to NaT. -/
structure SpRow where
  opDate : Option Dt
  category : String
  amount : ℚ
deriving DecidableEq

/-- The transactions table: which required columns are present, plus the
rows.  Rows are only consulted when all required columns are present,
mirroring the column check that precedes all row accesses. -/
structure SpTable where
  hasOpDate : Bool
  hasCategory : Bool
  hasAmount : Bool
  rows : List SpRow

/-- Result dictionary of get_spending_by_category: an error dictionary, a
message dictionary, or the month-keyed report. -/
inductive SpendingResult where
  | errorResult (msg : String)
  | message (msg : String)
  | report (entries : List (String × ℚ))
deriving DecidableEq

/-- last_days = 90 in reports.py. -/
def last_days : ℤ := 90

/-- The required-columns list of reports.py and the missing sublist, in the
order of required_cols. -/
def sp_missing (t : SpTable) : List String :=
  (if t.hasOpDate then [] else ["Дата операции"])
    ++ (if t.hasCategory then [] else ["Категория"])
    ++ (if t.hasAmount then [] else ["Сумма операции"])

/-- Category normalisation of reports.py: .str.strip().str.lower(). -/
def sp_norm (s : String) : String := pyLower (pyStrip s)

/-- Stage (1) of the pipeline: parse operation dates, drop unparseable
rows (the df after the notna filter). -/
def sp_parsed (t : SpTable) : List SpRow := t.rows.filter (fun r => r.opDate.isSome)

/-- Stage (2): keep the expenses (amount < 0) and take absolute values. -/
def sp_expenses (t : SpTable) : List SpRow :=
  ((sp_parsed t).filter (fun r => r.amount < 0)).map (fun r => { r with amount := |r.amount| })

/-- Stage (3): normalise the category column. -/
def sp_normalized (t : SpTable) : List SpRow :=
  (sp_expenses t).map (fun r => { r with category := sp_norm r.category })

/-- Stage (4): the rows of the queried category. -/
def sp_category_tx (t : SpTable) (category : String) : List SpRow :=
  (sp_normalized t).filter (fun r => r.category = sp_norm category)

/-- Stage (5): the rows inside the inclusive 90-day window ending at the
target date. -/
def sp_window (t : SpTable) (category : String) (target : Dt) : List SpRow :=
  (sp_category_tx t category).filter (fun r =>
    r.opDate.elim false (fun dt =>
      dtOrd target - last_days * 86400 ≤ dtOrd dt ∧ dtOrd dt ≤ dtOrd target))

/-- Stage (6): the distinct months of the windowed rows (the groupby
keys; pandas sorts them, the embedding keeps first-occurrence order,
which no claim depends on). -/
def sp_months (t : SpTable) (category : String) (target : Dt) : List (ℕ × ℕ) :=
  ((sp_window t category target).filterMap (fun r =>
    r.opDate.map (fun dt => (dt.y, dt.m)))).eraseDups

/-- Stage (6) sums: the group sum of one month. -/
def sp_month_sum (t : SpTable) (category : String) (target : Dt) (ym : ℕ × ℕ) : ℚ :=
  (((sp_window t category target).filter (fun r =>
    r.opDate.elim false (fun dt => (dt.y, dt.m) = ym))).map (fun r => r.amount)).sum

/-- Body of get_spending_by_category after the target date is resolved.
Follows the source line by line: column check (a raised ValueError is
caught by the surrounding handler, which returns the error dictionary),
then the pipeline stages above, with the two empty-result message exits,
and per-month rounding to 2 decimals in the final report.
In the source the two message strings wrap the category in single quote
characters; the quotes are omitted here. -/
def spending_with_target (t : SpTable) (category : String) (target : Dt) : SpendingResult :=
  if sp_missing t ≠ [] then
    .errorResult ("Отсутствуют обязательные колонки: " ++ joinComma (sp_missing t))
  else if (sp_category_tx t category).isEmpty then
    .message ("Нет транзакций по категории " ++ category)
  else if (sp_window t category target).isEmpty then
    .message ("Нет транзакций по категории " ++ category ++ " за последние 3 месяца")
  else
    .report ((sp_months t category target).map (fun ym =>
      (fmtYM ym, round2 (sp_month_sum t category target ym))))

/-- get_spending_by_category of reports.py.  now is the value of
datetime.now() used when target_date is absent.  Every exception raised in
the body is caught by the trailing handler and returned as an error
dictionary, so the function always returns Except.ok; the Except layer
records that nothing propagates to the caller.  (The report_to_file
decorator persists the returned value verbatim to a sink — a collaborator
side effect with no influence on the value.) -/
def get_spending_by_category (now : Dt) (transactions : SpTable) (category : String)
    (target_date : Option String) : Except String SpendingResult :=
  match target_date with
  | none => .ok (spending_with_target transactions category now)
  | some s =>
    match parseDate10 s with
    | some p => .ok (spending_with_target transactions category ⟨p.1, p.2.1, p.2.2, 0⟩)
    | none => .ok (.errorResult ("time data " ++ s ++ " does not match format %Y-%m-%d"))

/-- The claim-side row predicate for the category-spend report: a
parseable operation date, a negative amount, a normalised category equal
to the normalised query category, an operation date inside the inclusive
90-day window, and a given calendar month. -/
def sp_claim_keep (category : String) (target : Dt) (ym : ℕ × ℕ) (r : SpRow) : Bool :=
  match r.opDate with
  | none => false
  | some dt =>
    decide (r.amount < 0) && decide (sp_norm r.category = sp_norm category)
      && decide (dtOrd target - 90 * 86400 ≤ dtOrd dt) && decide (dtOrd dt ≤ dtOrd target)
      && decide ((dt.y, dt.m) = ym)

/-! ## services.py: analyze_cashback_categories -/

/-- A row as seen by analyze_cashback_categories.  The cashback cell is
modelled by Option (Option ℚ): none is a missing value (dropped by the
first notna filter), some none a non-numeric value (coerced to NaN by
pd.to_numeric(errors="coerce") and dropped by the second notna filter),
some (some q) a numeric value. -/
structure CbRow where
  opDate : Option Dt
  status : String
  cashback : Option (Option ℚ)
  category : String
deriving DecidableEq

/-- The table read from the Excel file, with column-presence flags. -/
structure CbTable where
  hasDate : Bool
  hasStatus : Bool
  hasCashback : Bool
  hasCategory : Bool
  rows : List CbRow

/-- The JSON string returned by analyze_cashback_categories: either an
error object or the category-to-cashback report object (an empty report
is the json.dumps of the empty dictionary). -/
inductive CbResult where
  | errorJson (msg : String)
  | reportJson (entries : List (String × ℚ))
deriving DecidableEq

/-- Missing required columns of services.py, in required_columns order. -/
def cb_missing (t : CbTable) : List String :=
  (if t.hasDate then [] else ["Дата операции"])
    ++ (if t.hasStatus then [] else ["Статус"])
    ++ (if t.hasCashback then [] else ["Кэшбэк"])
    ++ (if t.hasCategory then [] else ["Категория"])

/-- The numeric cashback value of a row after both notna filters. -/
def cb_value (r : CbRow) : Option ℚ := r.cashback.bind id

/-- Stages (1)-(2): drop unparseable dates, then the two cashback notna
filters around pd.to_numeric(errors="coerce"). -/
def cb_parsed (t : CbTable) : List CbRow :=
  ((t.rows.filter (fun r => r.opDate.isSome)).filter (fun r => r.cashback.isSome)).filter
    (fun r => (cb_value r).isSome)

/-- Stage (3): the combined year/month/status filter. -/
def cb_filtered (t : CbTable) (year month : ℤ) : List CbRow :=
  (cb_parsed t).filter (fun r =>
    r.opDate.elim false (fun dt => (dt.y : ℤ) = year ∧ (dt.m : ℤ) = month)
      ∧ pyUpper (pyStrip r.status) = "OK")

/-- Stage (5): the rows with positive cashback. -/
def cb_positive (t : CbTable) (year month : ℤ) : List CbRow :=
  (cb_filtered t year month).filter (fun r => (cb_value r).elim false (fun q => 0 < q))

/-- Stage (6): group by category and sum cashback.  pandas sorts group
keys; the embedding keeps first-occurrence order, which no claim depends
on (the final report is re-sorted by value anyway). -/
def cb_grouped (t : CbTable) (year month : ℤ) : List (String × ℚ) :=
  (((cb_positive t year month).map (fun r => r.category)).eraseDups).map (fun c =>
    (c, ((cb_positive t year month).filter (fun r => r.category = c)).filterMap cb_value |>.sum))

/-- Body of analyze_cashback_categories once the file has been read.
Follows the source: column check (the raised ValueError is caught by the
trailing handler returning the error object), the pipeline stages above
with the two empty-result exits, and the final sort descending by value
(ties are left in the order of the sorted input; the source's sort order
on ties is unspecified). -/
def analyze_cashback_body (t : CbTable) (year month : ℤ) : CbResult :=
  if cb_missing t ≠ [] then
    .errorJson ("Отсутствуют обязательные столбцы: " ++ joinComma (cb_missing t))
  else if (cb_filtered t year month).isEmpty then .reportJson []
  else if (cb_positive t year month).isEmpty then .reportJson []
  else .reportJson ((cb_grouped t year month).mergeSort (fun a b => b.2 ≤ a.2))

/-- analyze_cashback_categories of services.py.  The file system is a
collaborator, modelled as an association list from paths to loaded tables;
a missing path raises FileNotFoundError, caught by the trailing handlers
together with every other exception of the body, so the function always
returns Except.ok: nothing propagates to the caller. -/
def analyze_cashback_categories (fs : List (String × CbTable)) (path_file : String)
    (year month : ℤ) : Except String CbResult :=
  match fs.lookup path_file with
  | none => .ok (.errorJson ("Файл " ++ path_file ++ " не найден"))
  | some t => .ok (analyze_cashback_body t year month)

/-! ## views.py -/

/-- A row of the dashboard table.  The card-number cell is the raw masked
string (none for a missing value); the operation-date cell is the result
of the strict parse pd.to_datetime(..., format="%d.%m.%Y %H:%M:%S"),
none meaning that parse raises. -/
structure VRow where
  cardNumber : Option String
  amount : ℚ
  opDate : Option Dt
  category : String
  description : String
deriving DecidableEq

/-- The dashboard transactions table. -/
structure VTable where
  rows : List VRow
deriving DecidableEq

/-- One entry of the per-card summary of process_cards_data. -/
structure CardEntry where
  last_digits : String
  total_spent : ℚ
  cashback : ℚ
deriving DecidableEq

/-- One entry of the top-transactions list of process_top_transactions. -/
structure TxEntry where
  date : String
  amount : ℚ
  category : String
  description : String
deriving DecidableEq

/-- re.search of the pattern backslash-asterisk (backslash-d{4}) used by
.str.extract in process_cards_data: the first asterisk followed by four
digits, capturing the digits. -/
def extract_last4_go : List Char → Option String
  | [] => none
  | c :: rest =>
    if c = '*' ∧ (rest.take 4).length = 4 ∧ (rest.take 4).all Char.isDigit then
      some (String.mk (rest.take 4))
    else extract_last4_go rest

/-- Last four digits extracted from a masked card number cell. -/
def extract_last4 (s : String) : Option String := extract_last4_go s.toList

/-- The raw (pre-rounding) total of the expense rows of one card group:
the sum of the signed amounts of rows whose extracted key matches. -/
def card_raw_total (df : VTable) (k : String) : ℚ :=
  ((df.rows.filter (fun r => r.cardNumber.bind extract_last4 = some k ∧ r.amount < 0)).map
    (fun r => r.amount)).sum

/-- Stage 1 of process_cards_data of views.py: the last_digits column
(extract on the card-number cell) paired with the row, filtered to
negative amounts. -/
def v_neg_keyed (df : VTable) : List (Option String × VRow) :=
  (df.rows.map (fun r => (r.cardNumber.bind extract_last4, r))).filter
    (fun p => p.2.amount < 0)

/-- The distinct card keys of the grouped rows. -/
def v_card_keys (df : VTable) : List String :=
  ((v_neg_keyed df).filterMap (fun p => p.1)).eraseDups

/-- The group sum of one card key. -/
def v_card_total (df : VTable) (k : String) : ℚ :=
  (((v_neg_keyed df).filter (fun p => p.1 = some k)).map (fun p => p.2.amount)).sum

/-- process_cards_data of views.py: group the keyed expense rows by key
(rows with no extracted key are dropped by groupby), sum each group, then
per group total_spent = abs(round(total, 2)) and
cashback = abs(round(total / 100, 2)).  pandas groupby sorts group keys;
the embedding uses first-occurrence order, which no claim depends on.
A table whose card-number column is entirely non-string raises inside the
handler and yields [] in the source; the typed embedding has no such
tables. -/
def process_cards_data (df : VTable) : List CardEntry :=
  (v_card_keys df).map (fun k =>
    { last_digits := k,
      total_spent := |round2 (v_card_total df k)|,
      cashback := |round2 (v_card_total df k / 100)| })

/-- The output entry built from one selected expense row: date reformatted
to "DD.MM.YYYY", amount = abs(round(signed, 2)). -/
def tx_entry (r : VRow) : TxEntry :=
  { date := r.opDate.elim "" fmtDMY,
    amount := |round2 r.amount|,
    category := r.category,
    description := r.description }

/-- The expense rows of the table (amount < 0), in table order. -/
def v_expenses (df : VTable) : List VRow := df.rows.filter (fun r => r.amount < 0)

/-- The expense rows sorted by signed amount descending (stable), the
order underlying DataFrame.nlargest. -/
def sorted_expenses (df : VTable) : List VRow :=
  (v_expenses df).mergeSort (fun a b => b.amount ≤ a.amount)

/-- process_top_transactions of views.py: filter to expenses, parse their
dates with the strict format (any failure raises, caught by the handler
returning []), select the n largest by signed amount with keep="all"
tie handling (every row tying with the n-th selected value is kept), and
format the entries. -/
def process_top_transactions (df : VTable) (n : ℕ) : List TxEntry :=
  if (v_expenses df).any (fun r => r.opDate.isNone) then []
  else
    List.map tx_entry
      (if n = 0 then []
       else
         match (sorted_expenses df).get? (n - 1) with
         | none => sorted_expenses df
         | some t => (sorted_expenses df).take n
             ++ ((sorted_expenses df).drop n).takeWhile (fun r => r.amount = t.amount))

/-- get_greeting of views.py. -/
def get_greeting (time_str : String) : String :=
  match parseDateTime time_str with
  | some (_, _, _, hour, _, _) =>
    if 5 ≤ hour ∧ hour < 12 then "Доброе утро"
    else if 12 ≤ hour ∧ hour < 17 then "Добрый день"
    else if 17 ≤ hour ∧ hour < 23 then "Добрый вечер"
    else "Доброй ночи"
  | none => "Добрый день"

/-- validate_datetime_format of views.py. -/
def validate_datetime_format (time_str : String) : Bool := (parseDateTime time_str).isSome

/-- User settings, a collaborator value (load_user_settings). -/
structure UserSettings where
  user_currencies : List String
  user_stocks : List String

/-- get_currency_rate of views.py, with the provider call abstracted:
some rates is the "rates" mapping of a successful response, none is any
request failure; every failure is caught inside the function and an empty
rates mapping is returned. -/
def get_currency_rate (provider : Option (List (String × ℚ))) : List (String × ℚ) :=
  provider.getD []

/-- format_currency_rates of views.py: one output entry per configured
currency; an absent rate defaults to 1; a zero rate yields 0.0 and the
reciprocal is not formed; otherwise round(1 / rate, 2).  The except
branch of the source (which returns the fixed fallback table) is the
handler of exceptions that the typed embedding cannot produce. -/
def format_currency_rates (settings : UserSettings) (rates : List (String × ℚ)) :
    List (String × ℚ) :=
  settings.user_currencies.map (fun currency =>
    let rate := (rates.lookup currency).getD 1
    (currency, if rate ≠ 0 then round2 (1 / rate) else 0))

/-- The fixed fallback rate table of views.py. -/
def fallback_rates : List (String × ℚ) := [("USD", 73.21), ("EUR", 87.08)]

/-- get_stock_prices of views.py with the provider abstracted: a missing
API key raises (uncaught) before the handler is entered; afterwards each
symbol is fetched independently, a failed symbol is skipped, a fetched
price is rounded to 2 decimals. -/
def get_stock_prices (api_key_present : Bool) (settings : UserSettings)
    (quotes : String → Option ℚ) : Except String (List (String × ℚ)) :=
  if api_key_present then
    .ok (settings.user_stocks.filterMap (fun symbol =>
      (quotes symbol).map (fun price => (symbol, round2 price))))
  else .error "API ключ для Alpha Vantage не найден"

/-- The JSON-shaped dashboard report of generate_response. -/
structure DashResponse where
  greeting : String
  cards : List CardEntry
  top_transactions : List TxEntry
  currency_rates : List (String × ℚ)
  stock_prices : List (String × ℚ)
deriving DecidableEq

/-- generate_response of views.py: validate the timestamp (invalid raises
ValueError), format the currency rates (the handler with the fixed
fallback table guards this step, but both callees return normally on
provider failure, so it is not triggered in the embedding), then build
cards, top transactions (n = 5) and stock prices; an exception of that
second block — in the embedding, only the missing stock API key —
propagates to the caller. -/
def generate_response (settings : UserSettings) (currency_provider : Option (List (String × ℚ)))
    (stock_api_key : Bool) (quotes : String → Option ℚ)
    (date_time_str : String) (df : VTable) : Except String DashResponse :=
  if validate_datetime_format date_time_str then
    let currency_rates := format_currency_rates settings (get_currency_rate currency_provider)
    match get_stock_prices stock_api_key settings quotes with
    | .error e => .error e
    | .ok stock_prices =>
      .ok { greeting := get_greeting date_time_str,
            cards := process_cards_data df,
            top_transactions := process_top_transactions df 5,
            currency_rates := currency_rates,
            stock_prices := stock_prices }
  else .error "Неверный формат даты"

/-! ## Concrete sample data used by witnesses and counterexamples -/

/-- A spending table missing every required column. -/
def c2df : SpTable := ⟨false, false, false, []⟩

/-- One expense row of the sample spending table. -/
def c1row : SpRow := ⟨some ⟨2023, 3, 1, 0⟩, " Продукты", -100⟩

/-- A well-formed spending table with one matching expense row. -/
def c1df : SpTable := ⟨true, true, true, [c1row]⟩

/-- Two cashback rows dated December 2021, status OK. -/
def cbrow1 : CbRow := ⟨some ⟨2021, 12, 1, 43200⟩, "OK", some (some 100), "Супермаркеты"⟩

def cbrow2 : CbRow := ⟨some ⟨2021, 12, 15, 66600⟩, "OK", some (some 50), "АЗС"⟩

/-- A well-formed cashback table. -/
def c8table : CbTable := ⟨true, true, true, true, [cbrow1, cbrow2]⟩

/-- A loaded file system holding the cashback table. -/
def c8fs : List (String × CbTable) := [("operations.xlsx", c8table)]

/-- A cashback table missing the date column. -/
def c3badTable : CbTable := ⟨false, true, true, true, []⟩

def c3fs : List (String × CbTable) := [("data.xlsx", c3badTable)]

/-- Three expense rows, already in descending signed-amount order, with a
tie between the second and third. -/
def vrow1 : VRow := ⟨some "*1111", -1, some ⟨2023, 1, 1, 36000⟩, "Кафе", "d1"⟩

def vrow2 : VRow := ⟨some "*2222", -2, some ⟨2023, 1, 2, 0⟩, "АЗС", "d2"⟩

def vrow3 : VRow := ⟨some "*3333", -2, some ⟨2023, 1, 3, 0⟩, "Такси", "d3"⟩

def c6df : VTable := ⟨[vrow1, vrow2, vrow3]⟩

/-- One expense row with an unparseable operation date. -/
def c7df : VTable := ⟨[⟨some "*1111", -5, none, "Кафе", "bad"⟩]⟩

/-- One expense row of card 1234 whose amount exercises the difference
between rounding the raw total and re-rounding the rounded total. -/
def c5df : VTable := ⟨[⟨some "*1234", -(1.4975 : ℚ), none, "Еда", "d"⟩]⟩

/-- A one-card table with an integral amount. -/
def c5wdf : VTable := ⟨[⟨some "*9999", -3, none, "Еда", "d"⟩]⟩

/-! ## Numeric lemmas about round2 -/

theorem roundHalfEven_intCast (m : ℤ) : roundHalfEven (m : ℚ) = m := by
  unfold roundHalfEven
  norm_num [Int.floor_intCast]

theorem round2_intCast (n : ℤ) : round2 (n : ℚ) = (n : ℚ) := by
  have h1 : (100 : ℚ) * n = ((100 * n : ℤ) : ℚ) := by push_cast; ring
  rw [round2, h1, roundHalfEven_intCast]
  push_cast
  field_simp

theorem round2_one : round2 (1 : ℚ) = 1 := by
  have h := round2_intCast 1
  simpa using h

theorem roundHalfEven_neg (x : ℚ) : roundHalfEven (-x) = -roundHalfEven x := by
  by_cases hfr : Int.fract x = 0
  · obtain ⟨n, hn⟩ : ∃ n : ℤ, x = (n : ℚ) := ⟨⌊x⌋, by
      have h := Int.floor_add_fract x
      rw [hfr] at h
      linarith⟩
    subst hn
    rw [← Int.cast_neg, roundHalfEven_intCast, roundHalfEven_intCast]
  · have ha1 : ((⌊-x⌋ : ℤ) : ℚ) = -x - Int.fract (-x) := by
      have h := Int.floor_add_fract (-x)
      linarith
    have ha2 : ((⌊x⌋ : ℤ) : ℚ) = x - Int.fract x := by
      have h := Int.floor_add_fract x
      linarith
    have h1q : ((⌊-x⌋ : ℤ) : ℚ) = -((⌊x⌋ : ℤ) : ℚ) - 1 := by
      rw [ha1, Int.fract_neg hfr, ha2]
      ring
    have h1 : ⌊-x⌋ = -⌊x⌋ - 1 := by exact_mod_cast h1q
    have hfd : Int.fract x = x - (⌊x⌋ : ℚ) := rfl
    have hfdn : Int.fract (-x) = -x - (⌊-x⌋ : ℚ) := rfl
    have h2 : -x - ((⌊-x⌋ : ℤ) : ℚ) = 1 - (x - ((⌊x⌋ : ℤ) : ℚ)) := by
      rw [← hfdn, ← hfd, Int.fract_neg hfr]
    unfold roundHalfEven
    dsimp only
    rw [h2, h1]
    have hr0 : (0 : ℚ) ≤ x - (⌊x⌋ : ℚ) := by
      rw [← hfd]; exact Int.fract_nonneg x
    have hr1 : x - (⌊x⌋ : ℚ) < 1 := by
      rw [← hfd]; exact Int.fract_lt_one x
    split_ifs <;> first | omega | linarith

theorem round2_neg (x : ℚ) : round2 (-x) = -round2 x := by
  unfold round2
  rw [mul_neg, roundHalfEven_neg]
  push_cast
  ring

theorem roundHalfEven_nonneg (x : ℚ) (hx : 0 ≤ x) : 0 ≤ roundHalfEven x := by
  unfold roundHalfEven
  have hf : 0 ≤ ⌊x⌋ := Int.floor_nonneg.mpr hx
  dsimp only
  split_ifs <;> omega

theorem round2_nonneg (x : ℚ) (hx : 0 ≤ x) : 0 ≤ round2 x := by
  unfold round2
  have h := roundHalfEven_nonneg (100 * x) (by linarith)
  positivity

theorem round2_abs (x : ℚ) : round2 |x| = |round2 x| := by
  rcases le_or_lt 0 x with hx | hx
  · rw [abs_of_nonneg hx, abs_of_nonneg (round2_nonneg x hx)]
  · have hax : |x| = -x := abs_of_neg hx
    have hr : round2 x ≤ 0 := by
      have h := round2_nonneg (-x) (by linarith)
      rw [round2_neg] at h
      linarith
    rw [hax, round2_neg, abs_of_nonpos hr]

/-! ## Claim C9: greeting intervals and malformed-timestamp fallback -/

/-- C9: for every timestamp string, the greeting is chosen from the parsed
hour by the fixed half-open intervals [5,12) morning, [12,17) day,
[17,23) evening, [23,24) and [0,5) night, and a string that does not parse
in the "YYYY-MM-DD HH:MM:SS" format yields the day greeting instead of
failing. -/
theorem c9_greeting_intervals (s : String) :
    (∀ y mo d h mi se, parseDateTime s = some (y, mo, d, h, mi, se) →
        ((5 ≤ h ∧ h < 12) → get_greeting s = "Доброе утро")
      ∧ ((12 ≤ h ∧ h < 17) → get_greeting s = "Добрый день")
      ∧ ((17 ≤ h ∧ h < 23) → get_greeting s = "Добрый вечер")
      ∧ ((h = 23 ∨ h < 5) → get_greeting s = "Доброй ночи"))
    ∧ (parseDateTime s = none → get_greeting s = "Добрый день") := by
  constructor
  · intro y mo d h mi se hp
    refine ⟨?_, ?_, ?_, ?_⟩ <;>
      · intro hh
        unfold get_greeting
        rw [hp]
        dsimp only
        split_ifs <;> first | rfl | omega
  · intro hp
    unfold get_greeting
    rw [hp]

theorem c9_greeting_intervals_witness :
    get_greeting "2023-01-01 06:00:00" = "Доброе утро"
    ∧ get_greeting "2023-01-01 23:00:00" = "Доброй ночи"
    ∧ get_greeting "garbage" = "Добрый день" := by
  refine ⟨?_, ?_, ?_⟩
  · exact ((c9_greeting_intervals _).1 2023 1 1 6 0 0 (by decide)).1 (by decide)
  · exact ((c9_greeting_intervals _).1 2023 1 1 23 0 0 (by decide)).2.2.2 (by decide)
  · exact (c9_greeting_intervals _).2 (by decide)

/-! ## Claim C10: currency rate formatter -/

/-- C10: the currency rate formatter returns exactly one entry per
configured currency, in order; a currency whose provider rate is 0 gets
output rate 0 (the reciprocal is never formed, so no division by zero
occurs), a currency absent from the provider mapping gets default rate 1
and hence output rate 1, and otherwise the output rate is
round(1 / rate, 2). -/
theorem c10_currency_formatter (settings : UserSettings) (rates : List (String × ℚ)) :
    (format_currency_rates settings rates).map Prod.fst = settings.user_currencies
    ∧ ∀ p ∈ format_currency_rates settings rates,
        (rates.lookup p.1 = none → p.2 = 1)
      ∧ (rates.lookup p.1 = some 0 → p.2 = 0)
      ∧ (∀ r, rates.lookup p.1 = some r → r ≠ 0 → p.2 = round2 (1 / r)) := by
  constructor
  · unfold format_currency_rates
    rw [List.map_map, show (Prod.fst ∘ fun currency : String =>
      (currency, if (rates.lookup currency).getD 1 ≠ 0
        then round2 (1 / (rates.lookup currency).getD 1) else 0)) = id from funext fun c => rfl]
    exact List.map_id _
  · intro p hp
    simp only [format_currency_rates, List.mem_map] at hp
    obtain ⟨c, _, hpc⟩ := hp
    subst hpc
    refine ⟨?_, ?_, ?_⟩
    · intro hnone
      simp only [hnone]
      norm_num [round2_one]
    · intro h0
      simp [h0]
    · intro r hr hrne
      simp [hr, hrne]

theorem c10_currency_formatter_witness :
    (("USD", round2 (1 / 1)) : String × ℚ).2 = 1 :=
  ((c10_currency_formatter ⟨["USD"], []⟩ []).2 ("USD", round2 (1 / 1))
    (by simp [format_currency_rates])).1 rfl

/-! ## Claims C6, C7: top transactions -/

theorem v_expenses_no_bad_dates (df : VTable)
    (hpar : ∀ r ∈ df.rows, r.amount < 0 → r.opDate.isSome) :
    (v_expenses df).any (fun r => r.opDate.isNone) = false := by
  apply List.any_eq_false.mpr
  intro r hr
  have hm := List.mem_filter.mp hr
  have hs := hpar r hm.1 (by simpa using hm.2)
  cases hd : r.opDate with
  | none => rw [hd] at hs; simp at hs
  | some dt => simp

/-- C6: top_expenses returns the empty sequence for n = 0; with every
expense date parseable and n at least the number of expense rows it
returns (a permutation of) all expense rows; selection uses the signed
amount ordering with keep-all-ties semantics, so an (n+1)-th sorted row
tying with the n-th makes the result longer than n; and every output
amount is the absolute value of the row amount rounded to 2 decimals. -/
theorem c6_top_selection (df : VTable) (n : ℕ) :
    process_top_transactions df 0 = []
    ∧ ((∀ r ∈ df.rows, r.amount < 0 → r.opDate.isSome)
        → (v_expenses df).length ≤ n
        → (process_top_transactions df n).Perm ((v_expenses df).map tx_entry))
    ∧ ((∀ r ∈ df.rows, r.amount < 0 → r.opDate.isSome)
        → 1 ≤ n
        → ∀ a b, (sorted_expenses df).get? (n - 1) = some a
        → (sorted_expenses df).get? n = some b
        → a.amount = b.amount
        → n < (process_top_transactions df n).length)
    ∧ (∀ e ∈ process_top_transactions df n,
        ∃ r ∈ v_expenses df, e.amount = round2 |r.amount|) := by
  have hperm : (sorted_expenses df).Perm (v_expenses df) :=
    List.mergeSort_perm (v_expenses df) _
  have hlen : (sorted_expenses df).length = (v_expenses df).length := hperm.length_eq
  refine ⟨?_, ?_, ?_, ?_⟩
  · simp [process_top_transactions]
  · intro hpar hn
    have hany := v_expenses_no_bad_dates df hpar
    unfold process_top_transactions
    rw [hany]
    simp only [Bool.false_eq_true, if_false]
    by_cases hn0 : n = 0
    · subst hn0
      have h0 : (v_expenses df).length = 0 := Nat.le_zero.mp hn
      rw [List.length_eq_zero.mp h0]
      simp
    · rw [if_neg hn0]
      cases hq : (sorted_expenses df).get? (n - 1) with
      | none => exact hperm.map tx_entry
      | some t =>
        have hlt : n - 1 < (sorted_expenses df).length := by
          rcases List.get?_eq_some.mp hq with ⟨h, _⟩
          exact h
        have hle : (sorted_expenses df).length ≤ n := by omega
        rw [List.take_all_of_le hle, List.drop_eq_nil_of_le hle]
        simp only [List.takeWhile_nil, List.append_nil]
        exact hperm.map tx_entry
  · intro hpar hn1 a b ha hb hab
    have hany := v_expenses_no_bad_dates df hpar
    unfold process_top_transactions
    rw [hany]
    simp only [Bool.false_eq_true, if_false]
    rw [if_neg (by omega : ¬ n = 0), ha]
    have hnlt : n < (sorted_expenses df).length := by
      rcases List.get?_eq_some.mp hb with ⟨h, _⟩
      exact h
    cases hd : (sorted_expenses df).drop n with
    | nil =>
      have h0 := List.get?_drop (sorted_expenses df) n 0
      rw [hd, Nat.add_zero, hb] at h0
      simp at h0
    | cons x xs =>
      have hx : x = b := by
        have h0 := List.get?_drop (sorted_expenses df) n 0
        rw [hd, Nat.add_zero, hb] at h0
        simpa using h0
      dsimp only
      rw [List.takeWhile_cons, if_pos (by rw [hx, ← hab]; simp)]
      simp only [List.length_map, List.length_append, List.length_take, List.length_cons]
      omega
  · intro e he
    unfold process_top_transactions at he
    by_cases hany : (v_expenses df).any (fun r => r.opDate.isNone) = true
    · rw [hany] at he
      simp at he
    · rw [Bool.not_eq_true] at hany
      rw [hany] at he
      simp only [Bool.false_eq_true, if_false] at he
      by_cases hn0 : n = 0
      · rw [if_pos hn0] at he
        simp at he
      · rw [if_neg hn0] at he
        have hsub : ∀ r, (r ∈ (sorted_expenses df)) → r ∈ v_expenses df :=
          fun r hr => hperm.mem_iff.mp hr
        cases hq : (sorted_expenses df).get? (n - 1) with
        | none =>
          rw [hq] at he
          obtain ⟨r, hr, hre⟩ := List.mem_map.mp he
          exact ⟨r, hsub r hr, by rw [← hre]; simp [tx_entry, round2_abs]⟩
        | some t =>
          rw [hq] at he
          obtain ⟨r, hr, hre⟩ := List.mem_map.mp he
          have hrs : r ∈ sorted_expenses df := by
            rcases List.mem_append.mp hr with h | h
            · exact List.take_subset n _ h
            · exact List.drop_subset n _ (List.takeWhile_subset _ h)
          exact ⟨r, hsub r hrs, by rw [← hre]; simp [tx_entry, round2_abs]⟩

/-- C7: an unparseable date on any expense row makes top_expenses return
the empty sequence without raising (the handler catches the parse error
of the whole column). -/
theorem c7_top_fail_soft (df : VTable) (n : ℕ)
    (h : ∃ r ∈ df.rows, r.amount < 0 ∧ r.opDate = none) :
    process_top_transactions df n = [] := by
  have hany : (v_expenses df).any (fun r => r.opDate.isNone) = true := by
    obtain ⟨r, hr, hneg, hnone⟩ := h
    apply List.any_eq_true.mpr
    refine ⟨r, List.mem_filter.mpr ⟨hr, by simpa using hneg⟩, by rw [hnone]; rfl⟩
  unfold process_top_transactions
  rw [hany]
  simp

theorem c6_top_selection_witness :
    (∀ r ∈ c6df.rows, r.amount < 0 → r.opDate.isSome)
    ∧ (sorted_expenses c6df).get? 1 = some vrow2
    ∧ (sorted_expenses c6df).get? 2 = some vrow3
    ∧ vrow2.amount = vrow3.amount
    ∧ 2 < (process_top_transactions c6df 2).length
    ∧ (v_expenses c6df).length ≤ 5
    ∧ (process_top_transactions c6df 5).Perm ((v_expenses c6df).map tx_entry) := by
  have hv : v_expenses c6df = [vrow1, vrow2, vrow3] := by decide
  have hsort : sorted_expenses c6df = [vrow1, vrow2, vrow3] := by
    unfold sorted_expenses
    rw [hv]
    apply List.mergeSort_of_sorted
    decide
  refine ⟨by decide, by rw [hsort]; rfl, by rw [hsort]; rfl, rfl, ?_, by rw [hv]; decide, ?_⟩
  · exact (c6_top_selection c6df 2).2.2.1 (by decide) (by norm_num) vrow2 vrow3
      (by rw [hsort]; rfl) (by rw [hsort]; rfl) rfl
  · exact (c6_top_selection c6df 5).2.1 (by decide) (by rw [hv]; decide)

theorem c7_top_fail_soft_witness :
    process_top_transactions c7df 3 = [] :=
  c7_top_fail_soft c7df 3 ⟨⟨some "*1111", -5, none, "Кафе", "bad"⟩, by decide, by decide, rfl⟩

/-! ## Claim C2: missing required columns in get_spending_by_category -/

/-- C2 counterexample: at a concrete table missing all required columns
(and no target-date argument), get_spending_by_category returns an
ordinary error-dictionary value — it does not raise to the caller, so the
claimed fatal surfacing is false. -/
theorem c2_schema_counterexample :
    get_spending_by_category ⟨2023, 5, 15, 0⟩ c2df "продукты" none
      = .ok (.errorResult
          "Отсутствуют обязательные колонки: Дата операции, Категория, Сумма операции")
    ∧ ∀ e, get_spending_by_category ⟨2023, 5, 15, 0⟩ c2df "продукты" none
        ≠ .error e := by
  have h : get_spending_by_category ⟨2023, 5, 15, 0⟩ c2df "продукты" none
      = .ok (.errorResult
          "Отсутствуют обязательные колонки: Дата операции, Категория, Сумма операции") := by
    rfl
  exact ⟨h, fun e he => by rw [h] at he; exact Except.noConfusion he⟩

/-- C2 (amended): for every table missing at least one required column,
and a target date that is absent or parses, get_spending_by_category
catches the schema error internally and returns an error-dictionary value
whose message lists the missing column names; nothing is raised to the
caller. -/
theorem c2_schema_error_returned (now : Dt) (t : SpTable) (category : String)
    (target_date : Option String)
    (htd : target_date = none ∨ ∃ s p, target_date = some s ∧ parseDate10 s = some p)
    (hmiss : sp_missing t ≠ []) :
    get_spending_by_category now t category target_date
      = .ok (.errorResult ("Отсутствуют обязательные колонки: " ++ joinComma (sp_missing t))) := by
  have hbody : ∀ target, spending_with_target t category target
      = .errorResult ("Отсутствуют обязательные колонки: " ++ joinComma (sp_missing t)) := by
    intro target
    unfold spending_with_target
    rw [if_pos hmiss]
  rcases htd with h | ⟨s, p, hs, hp⟩
  · rw [h]
    unfold get_spending_by_category
    rw [hbody]
  · rw [hs]
    unfold get_spending_by_category
    dsimp only
    rw [hp]
    dsimp only
    rw [hbody]

theorem c2_schema_error_returned_witness :
    sp_missing c2df ≠ []
    ∧ get_spending_by_category ⟨2023, 5, 15, 0⟩ c2df "продукты" none
        = .ok (.errorResult
            ("Отсутствуют обязательные колонки: " ++ joinComma (sp_missing c2df))) :=
  ⟨by decide,
    c2_schema_error_returned ⟨2023, 5, 15, 0⟩ c2df "продукты" none (Or.inl rfl) (by decide)⟩

/-! ## Claim C3: failure surfacing of analyze_cashback_categories -/

/-- C3 counterexample: at a concrete missing file, the function returns
an ordinary error-JSON value and does not raise, so the claimed hard
failure (NotFoundError surfacing to the caller) is false. -/
theorem c3_hard_failure_counterexample :
    analyze_cashback_categories [] "nonexistent.xlsx" 2021 12
      = .ok (.errorJson "Файл nonexistent.xlsx не найден")
    ∧ ∀ e, analyze_cashback_categories [] "nonexistent.xlsx" 2021 12 ≠ .error e := by
  have h : analyze_cashback_categories [] "nonexistent.xlsx" 2021 12
      = .ok (.errorJson "Файл nonexistent.xlsx не найден") := rfl
  exact ⟨h, fun e he => by rw [h] at he; exact Except.noConfusion he⟩

/-- C3 (amended): analyze_cashback_categories never raises — every input
produces a returned value; a missing source file produces the
file-not-found error JSON and a present file with missing required
columns produces the schema error JSON listing the missing columns, both
as returned values. -/
theorem c3_failures_returned (fs : List (String × CbTable)) (path : String) (year month : ℤ) :
    (∃ r, analyze_cashback_categories fs path year month = .ok r)
    ∧ (fs.lookup path = none →
        analyze_cashback_categories fs path year month
          = .ok (.errorJson ("Файл " ++ path ++ " не найден")))
    ∧ (∀ t, fs.lookup path = some t → cb_missing t ≠ [] →
        analyze_cashback_categories fs path year month
          = .ok (.errorJson ("Отсутствуют обязательные столбцы: "
              ++ joinComma (cb_missing t)))) := by
  refine ⟨?_, ?_, ?_⟩
  · unfold analyze_cashback_categories
    cases fs.lookup path <;> exact ⟨_, rfl⟩
  · intro h
    unfold analyze_cashback_categories
    rw [h]
  · intro t h hmiss
    unfold analyze_cashback_categories
    rw [h]
    dsimp only
    unfold analyze_cashback_body
    rw [if_pos hmiss]

theorem c3_failures_returned_witness :
    List.lookup "data.xlsx" c3fs = some c3badTable
    ∧ cb_missing c3badTable ≠ []
    ∧ analyze_cashback_categories c3fs "data.xlsx" 2021 12
        = .ok (.errorJson ("Отсутствуют обязательные столбцы: "
            ++ joinComma (cb_missing c3badTable))) :=
  ⟨rfl, by decide,
    (c3_failures_returned c3fs "data.xlsx" 2021 12).2.2 c3badTable rfl (by decide)⟩

/-! ## Claim C8: cashback report sorted non-increasing -/

theorem cb_values_sorted (l : List (String × ℚ)) :
    List.Sorted (fun a b => b ≤ a)
      ((l.mergeSort (fun a b => b.2 ≤ a.2)).map Prod.snd) := by
  have hp := @List.sorted_mergeSort (String × ℚ)
    (fun a b => decide (b.2 ≤ a.2))
    (fun a b c hab hbc => by
      simp only [decide_eq_true_eq] at hab hbc ⊢
      exact le_trans hbc hab)
    (fun a b => by
      rcases le_total b.2 a.2 with h | h <;> simp [h])
    l
  apply List.pairwise_map.mpr
  exact hp.imp (fun h => by simpa using h)

/-- C8: the values of the cashback report, read in the report's own
order, form a non-increasing sequence. -/
theorem c8_cashback_sorted (fs : List (String × CbTable)) (path : String)
    (year month : ℤ) (l : List (String × ℚ))
    (h : analyze_cashback_categories fs path year month = .ok (.reportJson l)) :
    List.Sorted (fun a b => b ≤ a) (l.map Prod.snd) := by
  unfold analyze_cashback_categories at h
  cases hl : fs.lookup path with
  | none =>
    rw [hl] at h
    simp at h
  | some t =>
    rw [hl] at h
    dsimp only at h
    unfold analyze_cashback_body at h
    split_ifs at h with h1 h2 h3
    · simp at h
    · simp only [Except.ok.injEq, CbResult.reportJson.injEq] at h
      rw [← h]
      simp
    · simp only [Except.ok.injEq, CbResult.reportJson.injEq] at h
      rw [← h]
      simp
    · simp only [Except.ok.injEq, CbResult.reportJson.injEq] at h
      rw [← h]
      exact cb_values_sorted _

theorem c8_cashback_sorted_witness :
    analyze_cashback_categories c8fs "operations.xlsx" 2021 12
      = .ok (.reportJson (List.mergeSort [("Супермаркеты", (100 : ℚ)), ("АЗС", 50)]
          (fun a b => b.2 ≤ a.2)))
    ∧ List.Sorted (fun a b => b ≤ a)
        ((List.mergeSort [("Супермаркеты", (100 : ℚ)), ("АЗС", 50)]
          (fun a b => b.2 ≤ a.2)).map Prod.snd) := by
  have hfil : cb_filtered c8table 2021 12 = [cbrow1, cbrow2] := rfl
  have hpos : cb_positive c8table 2021 12 = [cbrow1, cbrow2] := rfl
  have hgr : cb_grouped c8table 2021 12 = [("Супермаркеты", (100 : ℚ)), ("АЗС", 50)] := by
    unfold cb_grouped
    rw [hpos]
    have hkeys : (([cbrow1, cbrow2].map (fun r => r.category)).eraseDups)
        = ["Супермаркеты", "АЗС"] := rfl
    rw [hkeys]
    have hf1 : [cbrow1, cbrow2].filter (fun r => decide (r.category = "Супермаркеты"))
        = [cbrow1] := rfl
    have hf2 : [cbrow1, cbrow2].filter (fun r => decide (r.category = "АЗС"))
        = [cbrow2] := rfl
    have hm1 : List.filterMap cb_value [cbrow1] = [100] := rfl
    have hm2 : List.filterMap cb_value [cbrow2] = [50] := rfl
    simp [hf1, hf2, hm1, hm2]
  have h : analyze_cashback_categories c8fs "operations.xlsx" 2021 12
      = .ok (.reportJson (List.mergeSort [("Супермаркеты", (100 : ℚ)), ("АЗС", 50)]
          (fun a b => b.2 ≤ a.2))) := by
    unfold analyze_cashback_categories
    have hl : c8fs.lookup "operations.xlsx" = some c8table := rfl
    rw [hl]
    dsimp only
    unfold analyze_cashback_body
    rw [if_neg (by decide), if_neg (by rw [hfil]; decide), if_neg (by rw [hpos]; decide), hgr]
  exact ⟨h, c8_cashback_sorted c8fs "operations.xlsx" 2021 12 _ h⟩

/-! ## Claim C4: dashboard report under provider failure -/

/-- C4 counterexample: with the currency provider failing (and the stock
key present), the produced report carries rate 1 for each configured
currency — not the fixed fallback table {USD: 73.21, EUR: 87.08}, which
therefore is not what the report contains on provider failure. -/
theorem c4_fallback_counterexample :
    (generate_response ⟨["USD", "EUR"], []⟩ none true (fun _ => none)
        "2023-05-15 14:30:00" ⟨[]⟩).map DashResponse.currency_rates
      = .ok [("USD", 1), ("EUR", 1)]
    ∧ ([("USD", (1 : ℚ)), ("EUR", 1)] ≠ fallback_rates) := by
  constructor
  · have hfmt : format_currency_rates ⟨["USD", "EUR"], []⟩ [] = [("USD", 1), ("EUR", 1)] := by
      unfold format_currency_rates
      norm_num [round2_one]
    unfold generate_response
    rw [show validate_datetime_format "2023-05-15 14:30:00" = true from by decide]
    simp only [if_true]
    unfold get_currency_rate
    simp only [Option.getD_none]
    rw [hfmt]
    rfl
  · norm_num [fallback_rates]

/-- C4 (amended): whenever the currency rate provider call fails, the
report is still produced, and its currency rates are one entry per
configured currency with rate 1 (the failure path yields an empty rates
mapping, so each currency takes the default rate 1), not the fixed
fallback table; when additionally every stock quote request fails (the
stock API key being present), the report carries an empty stock price
list. -/
theorem c4_provider_failure (settings : UserSettings) (quotes : String → Option ℚ)
    (s : String) (df : VTable) (hv : validate_datetime_format s = true) :
    ∃ resp, generate_response settings none true quotes s df = .ok resp
      ∧ resp.currency_rates = settings.user_currencies.map (fun c => (c, (1 : ℚ)))
      ∧ ((∀ sym, quotes sym = none) → resp.stock_prices = []) := by
  have hfmt : format_currency_rates settings [] =
      settings.user_currencies.map (fun c => (c, (1 : ℚ))) := by
    unfold format_currency_rates
    apply List.map_congr_left
    intro c _
    norm_num [round2_one]
  refine ⟨⟨get_greeting s, process_cards_data df, process_top_transactions df 5,
    format_currency_rates settings (get_currency_rate none),
    settings.user_stocks.filterMap (fun symbol =>
      (quotes symbol).map (fun price => (symbol, round2 price)))⟩, ?_, ?_, ?_⟩
  · unfold generate_response
    rw [hv]
    rfl
  · dsimp only
    rw [show get_currency_rate none = [] from rfl]
    exact hfmt
  · intro hq
    dsimp only
    rw [List.filterMap_eq_nil]
    intro sym _
    rw [hq sym]
    rfl

theorem c4_provider_failure_witness :
    validate_datetime_format "2023-05-15 14:30:00" = true
    ∧ ∃ resp, generate_response ⟨["USD", "EUR"], ["AAPL"]⟩ none true (fun _ => none)
          "2023-05-15 14:30:00" ⟨[]⟩ = .ok resp
        ∧ resp.currency_rates = (["USD", "EUR"] : List String).map (fun c => (c, (1 : ℚ)))
        ∧ ((∀ sym : String, (fun _ : String => (none : Option ℚ)) sym = none) →
            resp.stock_prices = []) :=
  ⟨by decide,
    c4_provider_failure ⟨["USD", "EUR"], ["AAPL"]⟩ (fun _ => none)
      "2023-05-15 14:30:00" ⟨[]⟩ (by decide)⟩

/-! ## Claim C5: card summary cashback estimate -/

theorem v_card_total_eq (df : VTable) (k : String) :
    v_card_total df k = card_raw_total df k := by
  unfold v_card_total card_raw_total v_neg_keyed
  induction df.rows with
  | nil => rfl
  | cons r rest ih =>
    rw [List.map_cons]
    by_cases h1 : r.amount < 0
    · rw [List.filter_cons_of_pos (by simpa using h1)]
      by_cases h2 : r.cardNumber.bind extract_last4 = some k
      · rw [List.filter_cons_of_pos (by simpa using h2),
          List.filter_cons_of_pos (by simp [h1, h2]),
          List.map_cons, List.map_cons, List.sum_cons, List.sum_cons, ih]
      · rw [List.filter_cons_of_neg (by simpa using h2),
          List.filter_cons_of_neg (by simp [h1, h2]), ih]
    · rw [List.filter_cons_of_neg (by simpa using h1),
        List.filter_cons_of_neg (by simp [h1]), ih]

/-- C5 counterexample: for the single expense amount -1.4975 the code
produces total_spent = 1.50 and cashback_estimate = 0.01, while
total_spent / 100 rounded to 2 decimals is 0.02 — so cashback_estimate
does not equal total_spent / 100 rounded to 2 decimals. -/
theorem c5_cashback_counterexample :
    process_cards_data c5df = [⟨"1234", 3/2, 1/100⟩]
    ∧ round2 ((3/2 : ℚ) / 100) = 2/100
    ∧ (1/100 : ℚ) ≠ 2/100 := by
  refine ⟨?_, ?_, by norm_num⟩
  · have hx : (some "*1234").bind extract_last4 = some "1234" := rfl
    have hkeyed : v_neg_keyed c5df
        = [(some "1234", ⟨some "*1234", -(1.4975 : ℚ), none, "Еда", "d"⟩)] := by
      unfold v_neg_keyed c5df
      norm_num [hx]
    have hkeys : v_card_keys c5df = ["1234"] := by
      unfold v_card_keys
      rw [hkeyed]
      rfl
    have htot : v_card_total c5df "1234" = -(1.4975 : ℚ) := by
      unfold v_card_total
      rw [hkeyed]
      simp
    have hr1 : round2 (-(1.4975 : ℚ)) = -(3/2) := by
      norm_num [round2, roundHalfEven, Int.floor_eq_iff]
    have hr2 : round2 (-(1.4975 : ℚ) / 100) = -(1/100) := by
      norm_num [round2, roundHalfEven, Int.floor_eq_iff]
    unfold process_cards_data
    rw [hkeys]
    simp only [List.map_cons, List.map_nil, htot, hr1, hr2, abs_neg]
    norm_num
  · norm_num [round2, roundHalfEven, Int.floor_eq_iff]

/-- C5 (amended): for every card summary entry, total_spent is the
absolute value of the rounded raw group total, cashback_estimate is the
absolute value of the rounded (raw group total / 100) — computed from the
raw total, not from the already-rounded total_spent — and both fields are
non-negative. -/
theorem c5_card_summary (df : VTable) (e : CardEntry) (he : e ∈ process_cards_data df) :
    e.total_spent = |round2 (card_raw_total df e.last_digits)|
    ∧ e.cashback = |round2 (card_raw_total df e.last_digits / 100)|
    ∧ 0 ≤ e.total_spent ∧ 0 ≤ e.cashback := by
  obtain ⟨k, hk, hke⟩ := List.mem_map.mp he
  rw [← hke]
  dsimp only
  rw [v_card_total_eq]
  exact ⟨rfl, rfl, abs_nonneg _, abs_nonneg _⟩

theorem c5_card_summary_witness :
    (⟨"9999", |round2 (v_card_total c5wdf "9999")|,
        |round2 (v_card_total c5wdf "9999" / 100)|⟩ : CardEntry) ∈ process_cards_data c5wdf
    ∧ (⟨"9999", |round2 (v_card_total c5wdf "9999")|,
        |round2 (v_card_total c5wdf "9999" / 100)|⟩ : CardEntry).total_spent
      = |round2 (card_raw_total c5wdf "9999")| := by
  have hkeys : v_card_keys c5wdf = ["9999"] := rfl
  have he : (⟨"9999", |round2 (v_card_total c5wdf "9999")|,
      |round2 (v_card_total c5wdf "9999" / 100)|⟩ : CardEntry) ∈ process_cards_data c5wdf := by
    unfold process_cards_data
    rw [hkeys]
    exact List.mem_singleton.mpr rfl
  exact ⟨he, (c5_card_summary c5wdf _ he).1⟩

/-! ## Claim C1: category spending values -/

theorem sp_month_sum_eq (t : SpTable) (category : String) (target : Dt) (ym : ℕ × ℕ) :
    sp_month_sum t category target ym
      = ((t.rows.filter (sp_claim_keep category target ym)).map (fun r => |r.amount|)).sum := by
  unfold sp_month_sum sp_window sp_category_tx sp_normalized sp_expenses sp_parsed
  induction t.rows with
  | nil => rfl
  | cons r rest ih =>
    cases hd : r.opDate with
    | none =>
      rw [List.filter_cons_of_neg (by simp [hd]),
        List.filter_cons_of_neg (by simp [sp_claim_keep, hd]), ih]
    | some dt =>
      rw [List.filter_cons_of_pos (by simp [hd])]
      by_cases a1 : r.amount < 0
      case neg =>
        rw [List.filter_cons_of_neg (by simpa using a1),
          List.filter_cons_of_neg (by simp [sp_claim_keep, hd, a1]), ih]
      case pos =>
        rw [List.filter_cons_of_pos (by simpa using a1), List.map_cons, List.map_cons]
        by_cases a2 : sp_norm r.category = sp_norm category
        case neg =>
          rw [List.filter_cons_of_neg (by simpa using a2),
            List.filter_cons_of_neg (by simp [sp_claim_keep, hd, a1, a2]), ih]
        case pos =>
          rw [List.filter_cons_of_pos (by simpa using a2)]
          by_cases a3 : dtOrd target - 90 * 86400 ≤ dtOrd dt
          case neg =>
            rw [List.filter_cons_of_neg (by simp [hd, last_days, a3] <;> omega),
              List.filter_cons_of_neg (by simp [sp_claim_keep, hd, a1, a2, a3] <;> omega), ih]
          case pos =>
            by_cases a4 : dtOrd dt ≤ dtOrd target
            case neg =>
              rw [List.filter_cons_of_neg (by simp [hd, last_days, a4]),
                List.filter_cons_of_neg (by simp [sp_claim_keep, hd, a1, a2, a3, a4]), ih]
            case pos =>
              rw [List.filter_cons_of_pos (by simp [hd, last_days, a3, a4] <;> omega)]
              by_cases a5 : (dt.y, dt.m) = ym
              case neg =>
                rw [List.filter_cons_of_neg (by simp [hd, a5]),
                  List.filter_cons_of_neg (by simp [sp_claim_keep, hd, a1, a2, a3, a4, a5]), ih]
              case pos =>
                rw [List.filter_cons_of_pos (by simp [hd, a5]),
                  List.filter_cons_of_pos
                    (by simp [sp_claim_keep, hd, a1, a2, a3, a4, a5] <;> omega),
                  List.map_cons, List.map_cons, List.sum_cons, List.sum_cons, ih]

/-- C1: for every row table, category string and valid target date, every
value of the returned report mapping equals the sum of the absolute
amounts of the rows with a parseable operation date, a negative amount, a
category equal to the query category after stripping and lower-casing
both sides, and an operation date inside the inclusive window
[target - 90 days, target], grouped by the calendar month carried in the
report key ("YYYY-MM") and rounded to 2 decimal places. -/
theorem c1_category_spend_values (now : Dt) (t : SpTable) (category : String)
    (s : String) (p : ℕ × ℕ × ℕ) (l : List (String × ℚ)) (k : String) (v : ℚ)
    (hs : parseDate10 s = some p)
    (hres : get_spending_by_category now t category (some s) = .ok (.report l))
    (hkv : (k, v) ∈ l) :
    ∃ ym : ℕ × ℕ, k = fmtYM ym
      ∧ v = round2 (((t.rows.filter
          (sp_claim_keep category ⟨p.1, p.2.1, p.2.2, 0⟩ ym)).map (fun r => |r.amount|)).sum) := by
  unfold get_spending_by_category at hres
  dsimp only at hres
  rw [hs] at hres
  dsimp only at hres
  have hb : spending_with_target t category ⟨p.1, p.2.1, p.2.2, 0⟩ = .report l := by
    simpa using hres
  unfold spending_with_target at hb
  by_cases h1 : sp_missing t ≠ []
  · rw [if_pos h1] at hb
    exact absurd hb (by simp)
  · rw [if_neg h1] at hb
    by_cases h2 : (sp_category_tx t category).isEmpty = true
    · rw [if_pos h2] at hb
      exact absurd hb (by simp)
    · rw [if_neg h2] at hb
      by_cases h3 : (sp_window t category ⟨p.1, p.2.1, p.2.2, 0⟩).isEmpty = true
      · rw [if_pos h3] at hb
        exact absurd hb (by simp)
      · rw [if_neg h3] at hb
        simp only [SpendingResult.report.injEq] at hb
        rw [← hb] at hkv
        obtain ⟨ym, hym, hpair⟩ := List.mem_map.mp hkv
        simp only [Prod.mk.injEq] at hpair
        refine ⟨ym, hpair.1.symm, ?_⟩
        rw [← hpair.2, sp_month_sum_eq]

theorem c1_category_spend_values_witness :
    parseDate10 "2023-03-01" = some (2023, 3, 1)
    ∧ get_spending_by_category ⟨2023, 5, 15, 0⟩ c1df "продукты" (some "2023-03-01")
        = .ok (.report [("2023-03",
            round2 (sp_month_sum c1df "продукты" ⟨2023, 3, 1, 0⟩ (2023, 3)))])
    ∧ ∃ ym : ℕ × ℕ, "2023-03" = fmtYM ym
        ∧ round2 (sp_month_sum c1df "продукты" ⟨2023, 3, 1, 0⟩ (2023, 3))
          = round2 (((c1df.rows.filter
              (sp_claim_keep "продукты" ⟨2023, 3, 1, 0⟩ ym)).map (fun r => |r.amount|)).sum) := by
  have hs : parseDate10 "2023-03-01" = some (2023, 3, 1) := by decide
  have hres : get_spending_by_category ⟨2023, 5, 15, 0⟩ c1df "продукты" (some "2023-03-01")
      = .ok (.report [("2023-03",
          round2 (sp_month_sum c1df "продукты" ⟨2023, 3, 1, 0⟩ (2023, 3)))]) := rfl
  exact ⟨hs, hres,
    c1_category_spend_values ⟨2023, 5, 15, 0⟩ c1df "продукты" "2023-03-01" (2023, 3, 1)
      _ "2023-03" _ hs hres (List.mem_singleton.mpr rfl)⟩
